import Mathlib

/-!
Verification of the Blacksmith service broker core (`broker.go`, `shield/shield.go`)
against its natural-language specification.

The Go code is shallowly embedded: each broker method becomes a Lean function.
External collaborators (the BOSH deployment gateway, manifest generation, the
shield backup client) are modelled as oracle records whose fields hold the
outcome of the single call the method makes to them (`Except String _`, the
`String` being the Go error message).  The Vault-backed operation ledger
(`vault.go` is not part of the sources in scope) is modelled from the spec as
an association list keyed by instance ID.  Go `map[string]T` indexing is
embedded as first-match lookup on an association list in which a later write
is consed in front of (and shadows) earlier ones, matching last-write-wins
map semantics.
-/

namespace Blacksmith

/-- A single-quote character, for reproducing Go error messages verbatim. -/
def sq : String := String.mk [Char.ofNat 39]

/-- Opaque credentials value generated at manifest-build time (Go `interface\x7b\x7d`);
its structure is irrelevant to the broker, so it is modelled as a string. -/
abbrev Creds : Type := String

/-- A service plan.  `Plan` is defined outside the sources in scope; only its
`Name` field (and its `ID` when the catalog is loaded) are used by `broker.go`. -/
structure Plan where
  id : String
  name : String
deriving DecidableEq, Repr

/-- One service from the catalog, as consumed by `ReadServices`:
an ID together with its list of plans. -/
structure Service where
  id : String
  plans : List Plan
deriving DecidableEq, Repr

/-- First-match lookup on an association list: the embedding of Go map indexing
(`plan, ok := b.Plans[key]`), given that writes cons the new binding in front. -/
def alookup {α : Type} (l : List (String × α)) (key : String) : Option α :=
  match l with
  | [] => none
  | (k, v) :: rest => if k = key then some v else alookup rest key

/-- The broker state relevant to the claims: the plan map built by `ReadServices`
(`b.Plans : map[string]Plan`).  The catalog list, BOSH client and Vault client
are passed to the individual operations as oracles. -/
structure Broker where
  plans : List (String × Plan)
deriving DecidableEq, Repr

/-- `broker.go` `FindPlan`: formats the key `planID + "/" + serviceID` from its
two arguments and looks it up in `b.Plans`, failing with the
`plan <key> not found` error when absent. -/
def FindPlan (b : Broker) (planID : String) (serviceID : String) : Except String Plan :=
  let key := planID ++ "/" ++ serviceID
  match alookup b.plans key with
  | some plan => Except.ok plan
  | none => Except.error ("plan " ++ key ++ " not found")

/-- `broker.go` `ReadServices`: builds `b.Plans` by iterating the services and
storing each plan under `s.ID + "/" + p.ID`.  Go map assignment is last-write-wins,
so each binding is consed in front of the previously written ones: the fold runs
left to right and prepends, hence `alookup` finds the most recent write. -/
def ReadServicesPlans (ss : List Service) : List (String × Plan) :=
  ss.foldl (fun m s => s.plans.foldl (fun m p => (s.id ++ "/" ++ p.id, p) :: m) m) []

/-- The broker produced by a successful `ReadServices` call on catalog `ss`. -/
def ReadServices (ss : List Service) : Broker :=
  ⟨ReadServicesPlans ss⟩

/-- An operation record tracked in the Vault ledger, keyed by instance ID.
Modelled from the spec: `vault.go` is outside the sources in scope; §3 gives the
record as `\x7bkind, taskID, credentials\x7d` with `credentials` absent for
deprovision records. -/
structure OperationRecord where
  kind : String
  taskID : Nat
  credentials : Option Creds
deriving DecidableEq, Repr

/-- The operation ledger: at most one current record per instance ID,
maintained by always writing fresh bindings in front and erasing on delete. -/
abbrev Ledger : Type := List (String × OperationRecord)

namespace Vault

/-- Modelled from the spec: the Ledger `put` operation behind `Vault.Track`
(`vault.go` is not in scope).  §3: writing a new record for an instance
overwrites any prior one. -/
def Track (ledger : Ledger) (instanceID : String) (kind : String) (taskID : Nat)
    (credentials : Option Creds) : Ledger :=
  (instanceID, ⟨kind, taskID, credentials⟩) :: ledger.filter (fun kv => kv.1 ≠ instanceID)

/-- Modelled from the spec: the Ledger `get` operation behind `Vault.State`
(`vault.go` is not in scope).  §6: `get(instanceID) → Record | NotFound`; the Go
method returns the record fields `(kind, taskID, credentials)`, with zero values
(empty kind, zero task, nil credentials) when no record exists — `broker.go`
discards the accompanying error at every call site. -/
def State (ledger : Ledger) (instanceID : String) : String × Nat × Option Creds :=
  match alookup ledger instanceID with
  | some rec => (rec.kind, rec.taskID, rec.credentials)
  | none => ("", 0, none)

/-- Modelled from the spec: the Ledger `delete` operation behind `Vault.Clear`
(`vault.go` is not in scope): removes the record for the instance. -/
def Clear (ledger : Ledger) (instanceID : String) : Ledger :=
  ledger.filter (fun kv => kv.1 ≠ instanceID)

end Vault

/-- `brokerapi.ProvisionDetails`: the fields `broker.go` reads (`ServiceID`, `PlanID`). -/
structure ProvisionDetails where
  serviceID : String
  planID : String
deriving DecidableEq, Repr

/-- `brokerapi.DeprovisionDetails`: the fields the shield client reads. -/
structure DeprovisionDetails where
  serviceID : String
  planID : String
deriving DecidableEq, Repr

/-- `brokerapi.BindDetails`; `broker.go` ignores its contents. -/
structure BindDetails where
  parameters : String
deriving DecidableEq, Repr

/-- `brokerapi.UpdateDetails`; `broker.go` ignores its contents. -/
structure UpdateDetails where
  serviceID : String
  planID : String
deriving DecidableEq, Repr

/-- `brokerapi.ProvisionedServiceSpec`: only its `IsAsync` field is set by `broker.go`. -/
structure ProvisionedServiceSpec where
  isAsync : Bool
deriving DecidableEq, Repr

/-- A `gogobosh` task: its ID and state string, the fields `broker.go` reads. -/
structure BoshTask where
  id : Nat
  state : String
deriving DecidableEq, Repr

/-- `gogobosh` director info: only the `UUID` field is read. -/
structure BoshInfo where
  uuid : String
deriving DecidableEq, Repr

/-- Outcomes of the external calls a single `Provision` invocation makes, in
call order: `b.BOSH.GetInfo()`, `GenManifest(plan, params)` (manifest text and
generated credentials), `b.BOSH.CreateDeployment(manifest)`, and whether
`b.Vault.Track` succeeds.  Each is called at most once per invocation, so its
outcome is a plain value. -/
structure ProvisionEnv where
  getInfo : Except String BoshInfo
  genManifest : Except String (String × Creds)
  createDeployment : Except String BoshTask
  trackOk : Bool
deriving Repr

/-- `broker.go` `Provision`, returning the `ProvisionedServiceSpec`, the error
(`none` on success, `some msg` with the Go error message otherwise), and the
ledger after the call.  `spec := \x7bIsAsync: true\x7d` is built first and
returned on every path.  A failing `Vault.Track` leaves the ledger unwritten. -/
def Provision (b : Broker) (ledger : Ledger) (env : ProvisionEnv)
    (instanceID : String) (details : ProvisionDetails) (asyncAllowed : Bool) :
    ProvisionedServiceSpec × Option String × Ledger :=
  let spec : ProvisionedServiceSpec := ⟨true⟩
  match FindPlan b details.serviceID details.planID with
  | Except.error e => (spec, some e, ledger)
  | Except.ok _plan =>
    match env.getInfo with
    | Except.error _ => (spec, some "BOSH deployment manifest generation failed", ledger)
    | Except.ok _info =>
      match env.genManifest with
      | Except.error _ => (spec, some "BOSH deployment manifest generation failed", ledger)
      | Except.ok (_manifest, creds) =>
        match env.createDeployment with
        | Except.error _ => (spec, some "backend BOSH deployment failed", ledger)
        | Except.ok task =>
          if env.trackOk then
            (spec, none, Vault.Track ledger instanceID "provision" task.id (some creds))
          else
            (spec, some "Vault tracking failed", ledger)

/-- Outcomes of the external calls a single `Deprovision` invocation makes:
`b.BOSH.DeleteDeployment(instanceID)` and whether `b.Vault.Track` succeeds. -/
structure DeprovisionEnv where
  deleteDeployment : Except String BoshTask
  trackOk : Bool
deriving Repr

/-- `broker.go` `Deprovision`, returning the `IsAsync` flag, the error, and the
ledger after the call.  The `Vault.Track` return value is discarded by the Go
code, so a failing write leaves the ledger unchanged yet the call still
returns success. -/
def Deprovision (ledger : Ledger) (env : DeprovisionEnv)
    (instanceID : String) (details : DeprovisionDetails) (asyncAllowed : Bool) :
    Bool × Option String × Ledger :=
  match env.deleteDeployment with
  | Except.error e => (true, some e, ledger)
  | Except.ok task =>
    let ledger2 :=
      if env.trackOk then Vault.Track ledger instanceID "deprovision" task.id none
      else ledger
    (true, none, ledger2)

/-- `brokerapi.LastOperation` value: only its `State` field is set. -/
structure LastOp where
  state : String
deriving DecidableEq, Repr

/-- `broker.go` `LastOperation`, returning the reported operation, the error,
and the ledger after the call.  `getTask` is the oracle for `b.BOSH.GetTask`,
applied to the task ID stored in the ledger record. -/
def LastOperation (ledger : Ledger) (getTask : Nat → Except String BoshTask)
    (instanceID : String) : LastOp × Option String × Ledger :=
  let (typ, taskID, _creds) := Vault.State ledger instanceID
  if typ = "provision" then
    match getTask taskID with
    | Except.error _ => (⟨""⟩, some "unrecognized backend BOSH task", ledger)
    | Except.ok task =>
      if task.state = "done" then (⟨"succeeded"⟩, none, ledger)
      else if task.state = "error" then (⟨"failed"⟩, none, ledger)
      else (⟨"in progress"⟩, none, ledger)
  else if typ = "deprovision" then
    match getTask taskID with
    | Except.error _ => (⟨""⟩, some "unrecognized backend BOSH task", ledger)
    | Except.ok task =>
      if task.state = "done" then (⟨"succeeded"⟩, none, Vault.Clear ledger instanceID)
      else if task.state = "error" then (⟨"failed"⟩, none, Vault.Clear ledger instanceID)
      else (⟨"in progress"⟩, none, ledger)
  else
    (⟨""⟩, some ("invalid state type " ++ sq ++ typ ++ sq), ledger)

/-- `brokerapi.Binding`: only its `Credentials` field is set by `broker.go`. -/
structure Binding where
  credentials : Option Creds
deriving DecidableEq, Repr

/-- `broker.go` `Bind`: reads the ledger state for `instanceID`, discarding the
kind, task ID and any error, and returns a binding holding the credentials
verbatim.  Every path returns a nil error. -/
def Bind (ledger : Ledger) (instanceID : String) (bindingID : String)
    (details : BindDetails) : Binding × Option String :=
  let (_typ, _taskID, creds) := Vault.State ledger instanceID
  (⟨creds⟩, none)

/-- `broker.go` `Unbind`: returns nil unconditionally. -/
def Unbind (instanceID : String) (bindingID : String) : Option String :=
  none

/-- `broker.go` `Update`: returns `(false, fmt.Errorf("not implemented"))`
unconditionally.  The method body touches neither the ledger nor any
collaborator; the ledger is threaded through unchanged to make that frame
condition statable. -/
def Update (ledger : Ledger) (instanceID : String) (details : UpdateDetails)
    (asyncAllowed : Bool) : Bool × Option String × Ledger :=
  (false, some "not implemented", ledger)

/-! ### The shield backup-scheduler client (`shield/shield.go`) -/

/-- `shield/shield.go` `join`: colon-joins its arguments (`strings.Join(s, ":")`). -/
def join (s : List String) : String :=
  String.intercalate ":" s

/-- One call made by `NetworkClient.DeleteSchedule` to the shield API, recorded
in order so that the call sequence is statable. -/
inductive ShieldCall where
  | findJob (query : String)
  | deleteTarget (targetUUID : String)
  | deleteJob (jobUUID : String)
deriving DecidableEq, Repr

/-- A shield job as read by `DeleteSchedule`: its UUID and its target's UUID. -/
structure ShieldJob where
  uuid : String
  targetUUID : String
deriving DecidableEq, Repr

/-- Outcomes of the external calls a single `DeleteSchedule` invocation makes,
in call order: `FindJob`, `DeleteTarget`, `DeleteJob`. -/
structure ShieldEnv where
  findJob : Except String ShieldJob
  deleteTarget : Except String Unit
  deleteJob : Except String Unit
deriving Repr

/-- `shield/shield.go` `NetworkClient.DeleteSchedule`: finds the job named
`jobs:<serviceID>:<planID>:<instanceID>`, then deletes its target, then deletes
the job, propagating the first error.  Returns the error and the trace of
shield API calls made, in order. -/
def DeleteSchedule (env : ShieldEnv) (instanceID : String)
    (details : DeprovisionDetails) : Option String × List ShieldCall :=
  let name := join ["jobs", details.serviceID, details.planID, instanceID]
  match env.findJob with
  | Except.error e => (some e, [ShieldCall.findJob ("name=" ++ name)])
  | Except.ok job =>
    match env.deleteTarget with
    | Except.error e =>
      (some e, [ShieldCall.findJob ("name=" ++ name), ShieldCall.deleteTarget job.targetUUID])
    | Except.ok _ =>
      match env.deleteJob with
      | Except.error e =>
        (some e, [ShieldCall.findJob ("name=" ++ name), ShieldCall.deleteTarget job.targetUUID,
          ShieldCall.deleteJob job.uuid])
      | Except.ok _ =>
        (none, [ShieldCall.findJob ("name=" ++ name), ShieldCall.deleteTarget job.targetUUID,
          ShieldCall.deleteJob job.uuid])

/-! ### Auxiliary definitions for statements and concrete evaluations -/

/-- The flattened `(key, plan)` pairs written by `ReadServices`, in write order;
`ReadServicesPlans` is its reverse, so that `alookup` sees the last write. -/
def flatPlans (ss : List Service) : List (String × Plan) :=
  ss.flatMap (fun s => s.plans.map (fun p => (s.id ++ "/" ++ p.id, p)))

/-- Following the claim's words, for comparison with the code-derived
definitions: the catalog contains a plan for `(serviceID, planID)`. -/
def CatalogContains (ss : List Service) (serviceID : String) (planID : String) : Bool :=
  ss.any (fun s => s.id == serviceID && s.plans.any (fun p => p.id == planID))

/-- An ID that does not contain the `/` separator used to build catalog keys. -/
def SlashFree (s : String) : Prop := '/' ∉ s.data

instance (s : String) : Decidable (SlashFree s) :=
  inferInstanceAs (Decidable ('/' ∉ s.data))

/-- Concrete sample values used by witnesses and counterexamples. -/
def samplePlan : Plan := ⟨"p1", "redis"⟩

def sampleBroker : Broker := ⟨[("s1/p1", samplePlan)]⟩

def sampleDetails : ProvisionDetails := ⟨"s1", "p1"⟩

def sampleDepDetails : DeprovisionDetails := ⟨"s1", "p1"⟩

def sampleLedger : Ledger := [("i1", ⟨"provision", 42, some "c1"⟩)]

def sampleInfo : BoshInfo := ⟨"uuid-1"⟩

def sampleTask : BoshTask := ⟨7, "queued"⟩

def envAllOk : ProvisionEnv := ⟨Except.ok sampleInfo, Except.ok ("manifest", "c1"), Except.ok sampleTask, true⟩

def envInfoFail : ProvisionEnv := ⟨Except.error "connection refused", Except.ok ("manifest", "c1"), Except.ok sampleTask, true⟩

def envManifestFail : ProvisionEnv := ⟨Except.ok sampleInfo, Except.error "template error", Except.ok sampleTask, true⟩

def envTrackFail : ProvisionEnv := ⟨Except.ok sampleInfo, Except.ok ("manifest", "c1"), Except.ok sampleTask, false⟩

def depEnvOk : DeprovisionEnv := ⟨Except.ok ⟨9, "queued"⟩, true⟩

def depEnvSubmitFail : DeprovisionEnv := ⟨Except.error "no such deployment", true⟩

def depEnvTrackFail : DeprovisionEnv := ⟨Except.ok ⟨9, "queued"⟩, false⟩

def shieldEnvOk : ShieldEnv := ⟨Except.ok ⟨"j1", "t1"⟩, Except.ok (), Except.ok ()⟩

def shieldEnvNoJob : ShieldEnv := ⟨Except.error "no such job", Except.ok (), Except.ok ()⟩

def catSlash : List Service := [⟨"a", [⟨"b/c", "P1"⟩]⟩]

def sampleCatalog : List Service := [⟨"s1", [⟨"p1", "redis"⟩]⟩]

/-! ### Helper lemmas -/

theorem alookup_filter_ne {α : Type} (l : List (String × α)) (i : String) :
    alookup (l.filter (fun kv => kv.1 ≠ i)) i = none := by
  induction l with
  | nil => rfl
  | cons kv rest ih =>
    by_cases h : kv.1 = i
    · simpa [List.filter_cons, h] using ih
    · simpa [List.filter_cons, h, alookup] using ih

theorem alookup_clear (ledger : Ledger) (i : String) :
    alookup (Vault.Clear ledger i) i = none :=
  alookup_filter_ne ledger i

theorem alookup_eq_some_mem {α : Type} {l : List (String × α)} {k : String} {v : α}
    (h : alookup l k = some v) : (k, v) ∈ l := by
  induction l with
  | nil => simp [alookup] at h
  | cons kv rest ih =>
    obtain ⟨k1, v1⟩ := kv
    by_cases hk : k1 = k
    · subst hk
      simp [alookup] at h
      subst h
      exact List.mem_cons_self _ _
    · simp [alookup, hk] at h
      exact List.mem_cons_of_mem _ (ih h)

theorem alookup_isSome_of_mem {α : Type} {l : List (String × α)} {k : String} {v : α}
    (h : (k, v) ∈ l) : (alookup l k).isSome = true := by
  induction l with
  | nil => simp at h
  | cons kv rest ih =>
    obtain ⟨k1, v1⟩ := kv
    by_cases hk : k1 = k
    · simp [alookup, hk]
    · rw [List.mem_cons] at h
      rcases h with h | h
      · injection h with h1 h2
        exact absurd h1.symm hk
      · simpa [alookup, hk] using ih h

theorem mem_flatPlans {ss : List Service} {k : String} {p : Plan} :
    (k, p) ∈ flatPlans ss ↔ ∃ s, s ∈ ss ∧ p ∈ s.plans ∧ k = s.id ++ "/" ++ p.id := by
  constructor
  · intro h
    rw [flatPlans, List.mem_flatMap] at h
    obtain ⟨s, hs, hmem⟩ := h
    rw [List.mem_map] at hmem
    obtain ⟨q, hq, heq⟩ := hmem
    injection heq with h1 h2
    subst h2
    exact ⟨s, hs, hq, h1.symm⟩
  · rintro ⟨s, hs, hp, hk⟩
    rw [flatPlans, List.mem_flatMap]
    exact ⟨s, hs, List.mem_map.mpr ⟨p, hp, by rw [hk]⟩⟩

theorem plansFoldInner (sid : String) (ps : List Plan) (m : List (String × Plan)) :
    ps.foldl (fun m p => (sid ++ "/" ++ p.id, p) :: m) m
      = (ps.map (fun p => (sid ++ "/" ++ p.id, p))).reverse ++ m := by
  induction ps generalizing m with
  | nil => simp
  | cons p rest ih => simp [ih, List.append_assoc]

theorem readServicesPlans_eq_aux (ss : List Service) (m : List (String × Plan)) :
    ss.foldl (fun m s => s.plans.foldl (fun m p => (s.id ++ "/" ++ p.id, p) :: m) m) m
      = (flatPlans ss).reverse ++ m := by
  induction ss generalizing m with
  | nil => simp [flatPlans]
  | cons s rest ih =>
    rw [List.foldl_cons, plansFoldInner, ih]
    simp [flatPlans, List.append_assoc]

theorem readServicesPlans_eq (ss : List Service) :
    ReadServicesPlans ss = (flatPlans ss).reverse := by
  rw [ReadServicesPlans, readServicesPlans_eq_aux]
  simp

theorem append_slash_inj : ∀ (a c : List Char) (b d : List Char), '/' ∉ a → '/' ∉ c →
    a ++ '/' :: b = c ++ '/' :: d → a = c ∧ b = d := by
  intro a
  induction a with
  | nil =>
    intro c b d _ hc h
    cases c with
    | nil => simpa using h
    | cons y ys =>
      rw [List.nil_append, List.cons_append] at h
      injection h with h1 h2
      rw [← h1] at hc
      simp at hc
  | cons x xs ih =>
    intro c b d ha hc h
    cases c with
    | nil =>
      rw [List.cons_append, List.nil_append] at h
      injection h with h1 h2
      rw [h1] at ha
      simp at ha
    | cons y ys =>
      rw [List.cons_append, List.cons_append] at h
      injection h with h1 h2
      have ha2 : '/' ∉ xs := fun hm => ha (List.mem_cons_of_mem _ hm)
      have hc2 : '/' ∉ ys := fun hm => hc (List.mem_cons_of_mem _ hm)
      obtain ⟨hac, hbd⟩ := ih ys b d ha2 hc2 h2
      exact ⟨by rw [h1, hac], hbd⟩

theorem key_inj {sid pid sid2 pid2 : String} (h1 : SlashFree sid) (h2 : SlashFree pid)
    (h3 : SlashFree sid2) (h4 : SlashFree pid2)
    (h : sid ++ "/" ++ pid = sid2 ++ "/" ++ pid2) : sid = sid2 ∧ pid = pid2 := by
  have hslash : ("/" : String).data = ['/'] := rfl
  have hd : sid.data ++ '/' :: pid.data = sid2.data ++ '/' :: pid2.data := by
    have h0 := congrArg String.data h
    simpa [String.data_append, hslash, List.append_assoc] using h0
  obtain ⟨ha, hb⟩ := append_slash_inj sid.data sid2.data pid.data pid2.data h1 h3 hd
  exact ⟨String.ext ha, String.ext hb⟩

theorem findPlan_ok_iff (b : Broker) (p s : String) (plan : Plan) :
    FindPlan b p s = Except.ok plan ↔ alookup b.plans (p ++ "/" ++ s) = some plan := by
  unfold FindPlan
  dsimp only
  cases h : alookup b.plans (p ++ "/" ++ s) <;> simp [h]

/-! ### Claims -/

/-- C8: for every input (any ledger state, any instance ID, any update details,
any asyncAllowed flag), `Update` returns the NotSupported error — the Go error
`not implemented` — with `IsAsync = false`, and performs no side effect on the
ledger. -/
theorem C8_update_not_supported (ledger : Ledger) (instanceID : String)
    (details : UpdateDetails) (asyncAllowed : Bool) :
    Update ledger instanceID details asyncAllowed = (false, some "not implemented", ledger) :=
  rfl

/-- C9: `Provision` returns a `ProvisionedServiceSpec` with `IsAsync = true` on
every return path — the success path and all five error paths (plan not found,
metadata fetch failure, manifest generation failure, deployment submission
failure, ledger write failure). -/
theorem C9_provision_isAsync (b : Broker) (ledger : Ledger) (env : ProvisionEnv)
    (instanceID : String) (details : ProvisionDetails) (asyncAllowed : Bool) :
    (Provision b ledger env instanceID details asyncAllowed).1.isAsync = true := by
  unfold Provision
  repeat' split
  all_goals rfl

/-- C5: when the teardown submission (`BOSH.DeleteDeployment`) fails,
`Deprovision` returns that error to the caller and the ledger is unchanged:
no operation record is written. -/
theorem C5_deprovision_submit_failure (ledger : Ledger) (env : DeprovisionEnv)
    (instanceID : String) (details : DeprovisionDetails) (asyncAllowed : Bool) (e : String)
    (h : env.deleteDeployment = Except.error e) :
    Deprovision ledger env instanceID details asyncAllowed = (true, some e, ledger) := by
  unfold Deprovision
  rw [h]

/-- Witness for C5 at a concrete failing submission. -/
theorem C5_witness :
    Deprovision [] depEnvSubmitFail "i1" sampleDepDetails true
      = (true, some "no such deployment", []) :=
  C5_deprovision_submit_failure [] depEnvSubmitFail "i1" sampleDepDetails true
    "no such deployment" rfl

/-- C4: ledger-write failure handling is asymmetric.  When the Gateway
submission succeeded but `Vault.Track` fails, `Provision` returns the
`Vault tracking failed` error, while `Deprovision` (which discards the
`Vault.Track` result) still returns success. -/
theorem C4_ledger_write_asymmetry :
    (∀ (b : Broker) (ledger : Ledger) (env : ProvisionEnv) (instanceID : String)
        (details : ProvisionDetails) (asyncAllowed : Bool) (plan : Plan) (info : BoshInfo)
        (manifest : String) (creds : Creds) (task : BoshTask),
      FindPlan b details.serviceID details.planID = Except.ok plan →
      env.getInfo = Except.ok info →
      env.genManifest = Except.ok (manifest, creds) →
      env.createDeployment = Except.ok task →
      env.trackOk = false →
      (Provision b ledger env instanceID details asyncAllowed).2.1
        = some "Vault tracking failed")
    ∧ (∀ (ledger : Ledger) (env : DeprovisionEnv) (instanceID : String)
        (details : DeprovisionDetails) (asyncAllowed : Bool) (task : BoshTask),
      env.deleteDeployment = Except.ok task →
      env.trackOk = false →
      Deprovision ledger env instanceID details asyncAllowed = (true, none, ledger)) := by
  constructor
  · intro b ledger env instanceID details asyncAllowed plan info manifest creds task
      h1 h2 h3 h4 h5
    unfold Provision
    rw [h1, h2, h3, h4, h5]
    rfl
  · intro ledger env instanceID details asyncAllowed task h1 h2
    unfold Deprovision
    rw [h1, h2]
    rfl

/-- Witness for C4: both halves at concrete inputs whose track step fails. -/
theorem C4_witness :
    (Provision sampleBroker [] envTrackFail "i1" sampleDetails true).2.1
      = some "Vault tracking failed"
    ∧ Deprovision [] depEnvTrackFail "i1" sampleDepDetails true = (true, none, []) :=
  ⟨C4_ledger_write_asymmetry.1 sampleBroker [] envTrackFail "i1" sampleDetails true
      samplePlan sampleInfo "manifest" "c1" sampleTask rfl rfl rfl rfl rfl,
   C4_ledger_write_asymmetry.2 [] depEnvTrackFail "i1" sampleDepDetails true
      ⟨9, "queued"⟩ rfl rfl⟩

/-- C6: `FindPlan` resolves a plan by the concatenated key built from its two
arguments as `planID + "/" + serviceID`: a stored key yields that plan, a
missing key yields the `plan <key> not found` error, and the result depends on
the arguments only through the concatenated key. -/
theorem C6_findPlan_key (b : Broker) (planID serviceID : String) :
    (∀ plan, alookup b.plans (planID ++ "/" ++ serviceID) = some plan →
      FindPlan b planID serviceID = Except.ok plan)
    ∧ (alookup b.plans (planID ++ "/" ++ serviceID) = none →
      FindPlan b planID serviceID =
        Except.error ("plan " ++ (planID ++ "/" ++ serviceID) ++ " not found"))
    ∧ (∀ planID2 serviceID2, planID ++ "/" ++ serviceID = planID2 ++ "/" ++ serviceID2 →
      FindPlan b planID serviceID = FindPlan b planID2 serviceID2) := by
  refine ⟨?_, ?_, ?_⟩
  · intro plan h
    unfold FindPlan
    dsimp only
    rw [h]
  · intro h
    unfold FindPlan
    dsimp only
    rw [h]
  · intro planID2 serviceID2 h
    unfold FindPlan
    dsimp only
    rw [h]

/-- Witness for C6: a hit, a miss under the swapped key, and key-equality
determining the result. -/
theorem C6_witness :
    FindPlan sampleBroker "s1" "p1" = Except.ok samplePlan
    ∧ FindPlan sampleBroker "p1" "s1" = Except.error "plan p1/s1 not found"
    ∧ FindPlan sampleBroker "a/b" "c" = FindPlan sampleBroker "a" "b/c" :=
  ⟨(C6_findPlan_key sampleBroker "s1" "p1").1 samplePlan rfl,
   (C6_findPlan_key sampleBroker "p1" "s1").2.1 rfl,
   (C6_findPlan_key sampleBroker "a/b" "c").2.2 "a" "b/c" rfl⟩

/-- C1 counterexample: `Bind` on an instance ID with no ledger record does not
fail with `InstanceNotFound` — it returns a successful binding (nil error) with
empty credentials, because `broker.go` discards the `Vault.State` error. -/
theorem C1_counterexample :
    Bind [] "i1" "b1" ⟨""⟩ = (⟨none⟩, none) :=
  rfl

/-- C1 amended: for every instance ID with no operation record in the ledger,
`Bind` still succeeds, returning a nil error and a binding whose credentials
are absent; it does not return `InstanceNotFound`. -/
theorem C1_bind_missing_record (ledger : Ledger) (instanceID bindingID : String)
    (details : BindDetails) (h : alookup ledger instanceID = none) :
    Bind ledger instanceID bindingID details = (⟨none⟩, none) := by
  unfold Bind Vault.State
  rw [h]

/-- Witness for C1 at a concrete empty ledger. -/
theorem C1_witness :
    Bind [] "i2" "b1" ⟨""⟩ = (⟨none⟩, none) :=
  C1_bind_missing_record [] "i2" "b1" ⟨""⟩ rfl

/-- C3 counterexample: when the environment-metadata query (`GetInfo`) fails,
`Provision` does not return a distinct `BackendUnavailable` error — it returns
`BOSH deployment manifest generation failed`, the very error the manifest
generation failure path returns. -/
theorem C3_counterexample :
    (Provision sampleBroker [] envInfoFail "i1" sampleDetails true).2.1
      = some "BOSH deployment manifest generation failed"
    ∧ (Provision sampleBroker [] envInfoFail "i1" sampleDetails true).2.1
      = (Provision sampleBroker [] envManifestFail "i1" sampleDetails true).2.1 :=
  ⟨rfl, rfl⟩

/-- C3 amended: for every `Provision` call whose plan lookup succeeds and whose
environment-metadata query fails, the call returns the same
`ManifestGenerationFailed` error message as a manifest-templating failure
(`BOSH deployment manifest generation failed`), leaving the ledger unchanged. -/
theorem C3_provision_info_failure (b : Broker) (ledger : Ledger) (env : ProvisionEnv)
    (instanceID : String) (details : ProvisionDetails) (asyncAllowed : Bool)
    (plan : Plan) (e : String)
    (hplan : FindPlan b details.serviceID details.planID = Except.ok plan)
    (hinfo : env.getInfo = Except.error e) :
    (Provision b ledger env instanceID details asyncAllowed).2.1
      = some "BOSH deployment manifest generation failed"
    ∧ (Provision b ledger env instanceID details asyncAllowed).2.2 = ledger := by
  unfold Provision
  rw [hplan, hinfo]
  exact ⟨rfl, rfl⟩

/-- Witness for C3 at a concrete unreachable-gateway environment. -/
theorem C3_witness :
    (Provision sampleBroker [] envInfoFail "i9" sampleDetails true).2.1
      = some "BOSH deployment manifest generation failed" :=
  (C3_provision_info_failure sampleBroker [] envInfoFail "i9" sampleDetails true
    samplePlan "connection refused" rfl rfl).1

theorem invalid_state_empty :
    ("invalid state type " ++ sq ++ "" ++ sq) = ("invalid state type " ++ sq ++ sq) :=
  rfl

/-- C2: the `LastOperation` state machine.  With a `provision` record, a polled
task maps `done` to `succeeded`, `error` to `failed`, anything else to
`in progress`, with no ledger side effect.  With a `deprovision` record the
same mapping applies and the record is additionally deleted on `done` or
`error`.  With no record, or a record of unrecognized kind, the call returns
the `invalid state type` error. -/
theorem C2_lastOperation_state_machine (ledger : Ledger)
    (getTask : Nat → Except String BoshTask) (instanceID : String) :
    (∀ rec, alookup ledger instanceID = some rec → rec.kind = "provision" →
      ∀ task, getTask rec.taskID = Except.ok task →
        LastOperation ledger getTask instanceID =
          (⟨if task.state = "done" then "succeeded"
            else if task.state = "error" then "failed" else "in progress"⟩, none, ledger))
    ∧ (∀ rec, alookup ledger instanceID = some rec → rec.kind = "deprovision" →
      ∀ task, getTask rec.taskID = Except.ok task →
        LastOperation ledger getTask instanceID =
          (⟨if task.state = "done" then "succeeded"
            else if task.state = "error" then "failed" else "in progress"⟩, none,
           if task.state = "done" ∨ task.state = "error" then Vault.Clear ledger instanceID
           else ledger)
        ∧ ((task.state = "done" ∨ task.state = "error") →
          alookup (LastOperation ledger getTask instanceID).2.2 instanceID = none))
    ∧ (alookup ledger instanceID = none →
      LastOperation ledger getTask instanceID =
        (⟨""⟩, some ("invalid state type " ++ sq ++ sq), ledger))
    ∧ (∀ rec, alookup ledger instanceID = some rec →
      rec.kind ≠ "provision" → rec.kind ≠ "deprovision" →
      LastOperation ledger getTask instanceID =
        (⟨""⟩, some ("invalid state type " ++ sq ++ rec.kind ++ sq), ledger)) := by
  refine ⟨?_, ?_, ?_, ?_⟩
  · intro rec hrec hkind task htask
    by_cases hd : task.state = "done" <;> by_cases he : task.state = "error" <;>
      simp [LastOperation, Vault.State, hrec, hkind, htask, hd, he]
  · intro rec hrec hkind task htask
    refine ⟨?_, ?_⟩
    · by_cases hd : task.state = "done" <;> by_cases he : task.state = "error" <;>
        simp [LastOperation, Vault.State, hrec, hkind, htask, hd, he]
    · intro hor
      have hres : (LastOperation ledger getTask instanceID).2.2
          = Vault.Clear ledger instanceID := by
        rcases hor with hd | he
        · simp [LastOperation, Vault.State, hrec, hkind, htask, hd]
        · simp [LastOperation, Vault.State, hrec, hkind, htask, he]
      rw [hres]
      exact alookup_clear ledger instanceID
  · intro h
    simp [LastOperation, Vault.State, h, invalid_state_empty]
  · intro rec hrec hk1 hk2
    simp [LastOperation, Vault.State, hrec, hk1, hk2]

/-- Witness for C2: a provision record whose task polls as done. -/
theorem C2_witness :
    LastOperation sampleLedger (fun _ => Except.ok ⟨42, "done"⟩) "i1"
      = (⟨"succeeded"⟩, none, sampleLedger) := by
  have h := (C2_lastOperation_state_machine sampleLedger
      (fun _ => Except.ok ⟨42, "done"⟩) "i1").1
    ⟨"provision", 42, some "c1"⟩ rfl rfl ⟨42, "done"⟩ rfl
  simpa using h

/-- C7 counterexample: on the all-success path, `DeleteSchedule` deletes the
deployment target (second call) before the backup job (third call) — not the
job first — and a failing job-name lookup is returned as an error, not
treated as success. -/
theorem C7_counterexample :
    DeleteSchedule shieldEnvOk "i1" sampleDepDetails
      = (none, [ShieldCall.findJob "name=jobs:s1:p1:i1",
        ShieldCall.deleteTarget "t1", ShieldCall.deleteJob "j1"])
    ∧ (DeleteSchedule shieldEnvNoJob "i1" sampleDepDetails).1 = some "no such job" :=
  ⟨rfl, rfl⟩

/-- C7 amended: `DeleteSchedule` looks the job up by name, then removes its
deployment target, then removes the job — target first, then job — and any
job-lookup failure (including a miss) is surfaced as an error rather than
treated as success. -/
theorem C7_deleteSchedule_order (env : ShieldEnv) (instanceID : String)
    (details : DeprovisionDetails) :
    (∀ e, env.findJob = Except.error e →
      DeleteSchedule env instanceID details =
        (some e, [ShieldCall.findJob
          ("name=" ++ join ["jobs", details.serviceID, details.planID, instanceID])]))
    ∧ (∀ job e, env.findJob = Except.ok job → env.deleteTarget = Except.error e →
      DeleteSchedule env instanceID details =
        (some e, [ShieldCall.findJob
            ("name=" ++ join ["jobs", details.serviceID, details.planID, instanceID]),
          ShieldCall.deleteTarget job.targetUUID]))
    ∧ (∀ job, env.findJob = Except.ok job → env.deleteTarget = Except.ok () →
      (DeleteSchedule env instanceID details).2 =
        [ShieldCall.findJob
            ("name=" ++ join ["jobs", details.serviceID, details.planID, instanceID]),
          ShieldCall.deleteTarget job.targetUUID, ShieldCall.deleteJob job.uuid]) := by
  refine ⟨?_, ?_, ?_⟩
  · intro e h
    unfold DeleteSchedule
    dsimp only
    rw [h]
  · intro job e h1 h2
    unfold DeleteSchedule
    dsimp only
    rw [h1, h2]
  · intro job h1 h2
    unfold DeleteSchedule
    dsimp only
    rw [h1, h2]
    cases h3 : env.deleteJob <;> rfl

/-- Witness for C7: the ordered trace on the success path and the propagated
lookup failure, at concrete inputs. -/
theorem C7_witness :
    (DeleteSchedule shieldEnvOk "i2" sampleDepDetails).2 =
      [ShieldCall.findJob "name=jobs:s1:p1:i2", ShieldCall.deleteTarget "t1",
        ShieldCall.deleteJob "j1"]
    ∧ (DeleteSchedule shieldEnvNoJob "i2" sampleDepDetails).1 = some "no such job" := by
  constructor
  · exact (C7_deleteSchedule_order shieldEnvOk "i2" sampleDepDetails).2.2 ⟨"j1", "t1"⟩ rfl rfl
  · rw [(C7_deleteSchedule_order shieldEnvNoJob "i2" sampleDepDetails).1 "no such job" rfl]

/-- C10 counterexample: with a plan ID containing the `/` separator, the
lookup succeeds for a `(serviceID, planID)` pair the catalog does not contain:
the catalog `[service "a" with plan "b/c"]` stores key `a/b/c`, which the
lookup for `("a/b", "c")` also builds. -/
theorem C10_counterexample :
    FindPlan (ReadServices catSlash) "a/b" "c" = Except.ok ⟨"b/c", "P1"⟩
    ∧ CatalogContains catSlash "a/b" "c" = false :=
  ⟨rfl, rfl⟩

/-- C10 amended: provided every service ID and plan ID in the catalog, and the
queried IDs, are free of the `/` separator, the round trip holds: the lookup
`FindPlan` performs for `Provision` — invoked with `(details.ServiceID,
details.PlanID)` against the map `ReadServices` built — succeeds exactly when
the catalog contains a plan for `(serviceID, planID)`, and any plan it returns
is one the catalog stores under exactly that pair (the two apparent
argument-order swaps cancel out). -/
theorem C10_catalog_roundtrip (ss : List Service) (sid pid : String)
    (hcat : ∀ s ∈ ss, SlashFree s.id ∧ ∀ p ∈ s.plans, SlashFree p.id)
    (hsid : SlashFree sid) (hpid : SlashFree pid) :
    ((∃ plan, FindPlan (ReadServices ss) sid pid = Except.ok plan)
      ↔ CatalogContains ss sid pid = true)
    ∧ (∀ plan, FindPlan (ReadServices ss) sid pid = Except.ok plan →
      ∃ s, s ∈ ss ∧ s.id = sid ∧ plan ∈ s.plans ∧ plan.id = pid) := by
  have hmem_of_ok : ∀ plan, FindPlan (ReadServices ss) sid pid = Except.ok plan →
      ∃ s, s ∈ ss ∧ s.id = sid ∧ plan ∈ s.plans ∧ plan.id = pid := by
    intro plan hp
    have hl := (findPlan_ok_iff (ReadServices ss) sid pid plan).mp hp
    have hmem : (sid ++ "/" ++ pid, plan) ∈ flatPlans ss := by
      have h2 := alookup_eq_some_mem hl
      rw [ReadServices] at h2
      rw [readServicesPlans_eq, List.mem_reverse] at h2
      exact h2
    obtain ⟨s, hs, hplan, hkey⟩ := mem_flatPlans.mp hmem
    obtain ⟨hseq, hpeq⟩ :=
      key_inj hsid hpid ((hcat s hs).1) ((hcat s hs).2 plan hplan) hkey
    exact ⟨s, hs, hseq.symm, hplan, hpeq.symm⟩
  refine ⟨⟨?_, ?_⟩, hmem_of_ok⟩
  · rintro ⟨plan, hp⟩
    obtain ⟨s, hs, hseq, hplan, hpeq⟩ := hmem_of_ok plan hp
    rw [CatalogContains, List.any_eq_true]
    refine ⟨s, hs, ?_⟩
    rw [Bool.and_eq_true, beq_iff_eq, List.any_eq_true]
    exact ⟨hseq, plan, hplan, by rw [beq_iff_eq, hpeq]⟩
  · intro hcontains
    rw [CatalogContains, List.any_eq_true] at hcontains
    obtain ⟨s, hs, hpred⟩ := hcontains
    rw [Bool.and_eq_true, beq_iff_eq, List.any_eq_true] at hpred
    obtain ⟨hsid2, q, hq, hqid⟩ := hpred
    rw [beq_iff_eq] at hqid
    have hmem : (sid ++ "/" ++ pid, q) ∈ ReadServicesPlans ss := by
      rw [readServicesPlans_eq, List.mem_reverse]
      exact mem_flatPlans.mpr ⟨s, hs, hq, by rw [hsid2, hqid]⟩
    have hsome := alookup_isSome_of_mem hmem
    obtain ⟨plan, hplan⟩ := Option.isSome_iff_exists.mp hsome
    exact ⟨plan, (findPlan_ok_iff (ReadServices ss) sid pid plan).mpr hplan⟩

/-- Witness for C10 on a concrete slash-free catalog. -/
theorem C10_witness :
    (∃ plan, FindPlan (ReadServices sampleCatalog) "s1" "p1" = Except.ok plan)
    ∧ CatalogContains sampleCatalog "s1" "p1" = true := by
  have h := C10_catalog_roundtrip sampleCatalog "s1" "p1"
    (by decide) (by decide) (by decide)
  exact ⟨h.1.mpr (by decide), by decide⟩

end Blacksmith
